import Mathlib

/-
Verification of the physics core of `planet.py` (an N-body planet
simulation).  The Python code is embedded shallowly over the real
numbers: each `Planet` object becomes a record, the in-place mutations
of `attraction` and `update_position` become explicit state passing,
and the main loop's per-frame pass over the planet list becomes a
sequential fold that overwrites one list entry at a time, exactly as
the `for planet in planets: planet.update_position(planets)` loop
does.  Python's `math.sqrt` is `Real.sqrt` and `math.atan2(y, x)` is
the argument of the complex number `x + y*i`.
-/

/-- The state of one `Planet` object.  Fields follow `Planet.__init__`:
`x`, `y`, `radius`, `mass`, `velocity` (a two-element list, embedded as a
pair), `orbit` (the trajectory history), `sun` (the is-primary flag) and
`distance_to_sun`.  The `color` attribute is pure rendering data, touched
only by `draw`, and is omitted. -/
structure Planet where
  x : ℝ
  y : ℝ
  radius : ℝ
  mass : ℝ
  velocity : ℝ × ℝ
  orbit : List (ℝ × ℝ)
  sun : Bool
  distance_to_sun : ℝ

instance : Inhabited Planet :=
  ⟨⟨0, 0, 0, 0, (0, 0), [], false, 0⟩⟩

/-- Class constant `Planet.AU = 149.6e6 * 1000`. -/
noncomputable def Planet.AU : ℝ := 149.6e6 * 1000

/-- Class constant `Planet.G = 6.67430e-11`. -/
noncomputable def Planet.G : ℝ := 6.67430e-11

/-- Class constant `Planet.SCALE = 150 / AU`. -/
noncomputable def Planet.SCALE : ℝ := 150 / Planet.AU

/-- Class constant `Planet.TIMESTEP = 3600 * 24` (one day in seconds). -/
noncomputable def Planet.TIMESTEP : ℝ := 3600 * 24

/-- Python's `math.atan2(y, x)`: the angle of the point `(x, y)`,
embedded as the argument of the complex number with real part `x` and
imaginary part `y`. -/
noncomputable def atan2 (y x : ℝ) : ℝ := Complex.arg ⟨x, y⟩

/-- The constructor `Planet.__init__(x, y, radius, color, mass)` (color
omitted): starts with velocity `[0, 0]`, empty `orbit`, `sun = False`,
`distance_to_sun = 0`. -/
def Planet.init (x y radius mass : ℝ) : Planet :=
  { x := x, y := y, radius := radius, mass := mass,
    velocity := (0, 0), orbit := [], sun := false, distance_to_sun := 0 }

/-- The method `Planet.attraction(self, other)`.  Returns the updated `self`
(the method assigns `self.distance_to_sun = distance` when `other.sun`)
together with the returned pair `(force_x, force_y)`.  Division here is
real-number division; the `distance == 0` case, where Python raises
`ZeroDivisionError`, is modelled separately by `attractionE`. -/
noncomputable def attraction (self other : Planet) : Planet × ℝ × ℝ :=
  let dx := other.x - self.x
  let dy := other.y - self.y
  let distance := Real.sqrt (dx ^ 2 + dy ^ 2)
  let self' := if other.sun then { self with distance_to_sun := distance } else self
  let force := Planet.G * self.mass * other.mass / distance ^ 2
  let angle := atan2 dy dx
  let force_x := force * Real.cos angle
  let force_y := force * Real.sin angle
  (self', force_x, force_y)

/-- Method `Planet.attraction` with Python's division semantics made explicit:
when the divisor `distance ** 2` is zero the call raises
`ZeroDivisionError` (after the `distance_to_sun` assignment, which
precedes the division in the method body); otherwise it returns the
same forces as `attraction`. -/
noncomputable def attractionE (self other : Planet) : Planet × Except String (ℝ × ℝ) :=
  let dx := other.x - self.x
  let dy := other.y - self.y
  let distance := Real.sqrt (dx ^ 2 + dy ^ 2)
  let self' := if other.sun then { self with distance_to_sun := distance } else self
  if distance ^ 2 = 0 then (self', Except.error "float division by zero")
  else (self', Except.ok ((attraction self other).2.1, (attraction self other).2.2))

/-- One iteration of the force-accumulation loop in
`Planet.update_position`: the accumulator carries the evolving `self`
(whose `distance_to_sun` the `attraction` calls may rewrite) and the
running totals `total_fx`, `total_fy`; the element is an (index, planet)
pair from the enumerated list, and `if self == planet: continue` is the
index test (Python's default `==` on objects is identity, and in the
simulation each body occurs in the list exactly once, at index `i`). -/
noncomputable def forceAccum (i : ℕ) (acc : Planet × ℝ × ℝ) (p : ℕ × Planet) :
    Planet × ℝ × ℝ :=
  if p.1 = i then acc
  else
    let t := attraction acc.1 p.2
    (t.1, acc.2.1 + t.2.1, acc.2.2 + t.2.2)

/-- The method `Planet.update_position(self, planets)` for the body stored at index
`i` of `planets`: accumulate forces over all other bodies, convert to
acceleration, update velocity from acceleration, update position from
the new velocity, append the new position to `orbit`. -/
noncomputable def update_position (self : Planet) (i : ℕ) (planets : List Planet) :
    Planet :=
  let r := planets.enum.foldl (forceAccum i) (self, 0, 0)
  let self' := r.1
  let acceleration_x := r.2.1 / self'.mass
  let acceleration_y := r.2.2 / self'.mass
  let vx := self'.velocity.1 + acceleration_x * Planet.TIMESTEP
  let vy := self'.velocity.2 + acceleration_y * Planet.TIMESTEP
  let x := self'.x + vx * Planet.TIMESTEP
  let y := self'.y + vy * Planet.TIMESTEP
  { self' with x := x, y := y, velocity := (vx, vy), orbit := self'.orbit ++ [(x, y)] }

/-- Sequential in-place update: run `update_position` on the entries at
the given indices, in order, each call seeing the list as mutated by the
previous calls.  This is the general shape of the main loop's
`for planet in planets: planet.update_position(planets)`. -/
noncomputable def seqUpdate (ps : List Planet) (idxs : List ℕ) : List Planet :=
  idxs.foldl (fun qs i => qs.set i (update_position (qs.getD i default) i qs)) ps

/-- One frame of the main loop (`for planet in planets:
planet.update_position(planets)`): every body is updated in list order,
each seeing the already-updated state of the bodies before it. -/
noncomputable def tick (ps : List Planet) : List Planet :=
  seqUpdate ps (List.range ps.length)

/-- Runs `k` frames of the main loop. -/
noncomputable def steps (k : ℕ) (ps : List Planet) : List Planet :=
  tick^[k] ps

/-- Modelled from the spec: the net force on the body at index `i`,
"summing the force vectors returned by `b.computeAttraction(other)` over
every other Body in the same collection", with `self` held fixed at its
pre-update state.  Used to state what `update_position` computes. -/
noncomputable def specNetForce (self : Planet) (i : ℕ) (ps : List Planet) : ℝ × ℝ :=
  ps.enum.foldl
    (fun acc p =>
      if p.1 = i then acc
      else (acc.1 + (attraction self p.2).2.1, acc.2 + (attraction self p.2).2.2))
    (0, 0)

/-- Modelled from the spec: the two-pass simultaneous-update scheme in
which every body's forces are computed from the pre-tick positions and
only then are all velocity/position updates applied. -/
noncomputable def tickTwoPass (ps : List Planet) : List Planet :=
  ps.enum.map (fun p => update_position p.2 p.1 ps)

/-! ### Helper lemmas about `atan2` and `attraction` -/

lemma cos_atan2 (y x : ℝ) (h : ¬(x = 0 ∧ y = 0)) :
    Real.cos (atan2 y x) = x / Real.sqrt (x ^ 2 + y ^ 2) := by
  have hz : (⟨x, y⟩ : ℂ) ≠ 0 := by
    intro hzz
    exact h ⟨congrArg Complex.re hzz, congrArg Complex.im hzz⟩
  rw [atan2, Complex.cos_arg hz, Complex.abs_apply, Complex.normSq_mk]
  rw [show x * x + y * y = x ^ 2 + y ^ 2 by ring]

lemma sin_atan2 (y x : ℝ) :
    Real.sin (atan2 y x) = y / Real.sqrt (x ^ 2 + y ^ 2) := by
  rw [atan2, Complex.sin_arg, Complex.abs_apply, Complex.normSq_mk]
  rw [show x * x + y * y = x ^ 2 + y ^ 2 by ring]

lemma attraction_snd (s o : Planet) (h : ¬(o.x - s.x = 0 ∧ o.y - s.y = 0)) :
    (attraction s o).2 =
      (Planet.G * s.mass * o.mass / Real.sqrt ((o.x - s.x) ^ 2 + (o.y - s.y) ^ 2) ^ 2 *
        ((o.x - s.x) / Real.sqrt ((o.x - s.x) ^ 2 + (o.y - s.y) ^ 2)),
       Planet.G * s.mass * o.mass / Real.sqrt ((o.x - s.x) ^ 2 + (o.y - s.y) ^ 2) ^ 2 *
        ((o.y - s.y) / Real.sqrt ((o.x - s.x) ^ 2 + (o.y - s.y) ^ 2))) := by
  simp only [attraction]
  rw [cos_atan2 _ _ h, sin_atan2]

lemma attraction_snd_right (s o : Planet) (hy : o.y = s.y) (hx : s.x < o.x) :
    (attraction s o).2 = (Planet.G * s.mass * o.mass / (o.x - s.x) ^ 2, 0) := by
  have hdx : (0 : ℝ) < o.x - s.x := sub_pos.mpr hx
  have h : ¬(o.x - s.x = 0 ∧ o.y - s.y = 0) := fun hc => absurd hc.1 (ne_of_gt hdx)
  have hy0 : o.y - s.y = 0 := by rw [hy]; ring
  have hs : Real.sqrt ((o.x - s.x) ^ 2 + (0 : ℝ) ^ 2) = o.x - s.x := by
    rw [show (o.x - s.x) ^ 2 + (0 : ℝ) ^ 2 = (o.x - s.x) ^ 2 by ring,
      Real.sqrt_sq hdx.le]
  rw [attraction_snd s o h, hy0, hs]
  rw [div_self (ne_of_gt hdx)]
  simp

lemma attraction_snd_left (s o : Planet) (hy : o.y = s.y) (hx : o.x < s.x) :
    (attraction s o).2 = (-(Planet.G * s.mass * o.mass / (o.x - s.x) ^ 2), 0) := by
  have hdx : o.x - s.x < 0 := sub_neg.mpr hx
  have h : ¬(o.x - s.x = 0 ∧ o.y - s.y = 0) := fun hc => absurd hc.1 (ne_of_lt hdx)
  have hy0 : o.y - s.y = 0 := by rw [hy]; ring
  have hs : Real.sqrt ((o.x - s.x) ^ 2 + (0 : ℝ) ^ 2) = -(o.x - s.x) := by
    rw [show (o.x - s.x) ^ 2 + (0 : ℝ) ^ 2 = (o.x - s.x) ^ 2 by ring,
      Real.sqrt_sq_eq_abs, abs_of_neg hdx]
  rw [attraction_snd s o h, hy0, hs]
  rw [show (-(o.x - s.x)) ^ 2 = (o.x - s.x) ^ 2 by ring,
    div_neg, div_self (ne_of_lt hdx)]
  simp [mul_comm]

lemma attraction_fst_fields (s o : Planet) :
    (attraction s o).1.x = s.x ∧ (attraction s o).1.y = s.y ∧
    (attraction s o).1.velocity = s.velocity ∧ (attraction s o).1.mass = s.mass ∧
    (attraction s o).1.radius = s.radius ∧ (attraction s o).1.orbit = s.orbit ∧
    (attraction s o).1.sun = s.sun := by
  simp only [attraction]
  by_cases h : o.sun <;> simp [h]

lemma attraction_fst_d2s (s o : Planet) :
    (attraction s o).1.distance_to_sun =
      if o.sun then Real.sqrt ((o.x - s.x) ^ 2 + (o.y - s.y) ^ 2)
      else s.distance_to_sun := by
  simp only [attraction]
  by_cases h : o.sun <;> simp [h]

lemma attraction_fst_of_not_sun (s o : Planet) (h : o.sun = false) :
    (attraction s o).1 = s := by
  simp [attraction, h]

lemma attraction_snd_congr (s t o : Planet) (hx : s.x = t.x) (hy : s.y = t.y)
    (hm : s.mass = t.mass) : (attraction s o).2 = (attraction t o).2 := by
  simp only [attraction]
  rw [hx, hy, hm]

/-! ### The force-accumulation loop of `update_position` -/

lemma forceLoop_fst_fields (i : ℕ) :
    ∀ (l : List (ℕ × Planet)) (s : Planet) (a b : ℝ),
    (l.foldl (forceAccum i) (s, a, b)).1.x = s.x ∧
    (l.foldl (forceAccum i) (s, a, b)).1.y = s.y ∧
    (l.foldl (forceAccum i) (s, a, b)).1.velocity = s.velocity ∧
    (l.foldl (forceAccum i) (s, a, b)).1.mass = s.mass ∧
    (l.foldl (forceAccum i) (s, a, b)).1.radius = s.radius ∧
    (l.foldl (forceAccum i) (s, a, b)).1.orbit = s.orbit ∧
    (l.foldl (forceAccum i) (s, a, b)).1.sun = s.sun := by
  intro l
  induction l with
  | nil => intro s a b; simp
  | cons p l ih =>
    intro s a b
    rw [List.foldl_cons]
    by_cases hp : p.1 = i
    · simp only [forceAccum, if_pos hp]
      exact ih s a b
    · simp only [forceAccum, if_neg hp]
      obtain ⟨h1, h2, h3, h4, h5, h6, h7⟩ :=
        ih (attraction s p.2).1 (a + (attraction s p.2).2.1) (b + (attraction s p.2).2.2)
      obtain ⟨g1, g2, g3, g4, g5, g6, g7⟩ := attraction_fst_fields s p.2
      exact ⟨h1.trans g1, h2.trans g2, h3.trans g3, h4.trans g4, h5.trans g5,
        h6.trans g6, h7.trans g7⟩

lemma forceLoop_snd (i : ℕ) (self : Planet) :
    ∀ (l : List (ℕ × Planet)) (s : Planet) (a b : ℝ),
    s.x = self.x → s.y = self.y → s.mass = self.mass →
    (l.foldl (forceAccum i) (s, a, b)).2 =
      l.foldl
        (fun acc p =>
          if p.1 = i then acc
          else (acc.1 + (attraction self p.2).2.1, acc.2 + (attraction self p.2).2.2))
        (a, b) := by
  intro l
  induction l with
  | nil => intro s a b _ _ _; simp
  | cons p l ih =>
    intro s a b hx hy hm
    rw [List.foldl_cons, List.foldl_cons]
    by_cases hp : p.1 = i
    · simp only [forceAccum, if_pos hp]
      exact ih s a b hx hy hm
    · simp only [forceAccum, if_neg hp]
      have hforce : (attraction s p.2).2 = (attraction self p.2).2 :=
        attraction_snd_congr s self p.2 hx hy hm
      have hfx : (attraction s p.2).2.1 = (attraction self p.2).2.1 :=
        congrArg Prod.fst hforce
      have hfy : (attraction s p.2).2.2 = (attraction self p.2).2.2 :=
        congrArg Prod.snd hforce
      obtain ⟨g1, g2, _, g4, _, _, _⟩ := attraction_fst_fields s p.2
      rw [ih (attraction s p.2).1 (a + (attraction s p.2).2.1)
        (b + (attraction s p.2).2.2) (g1.trans hx) (g2.trans hy) (g4.trans hm),
        hfx, hfy]

lemma forceLoop_fst_of_no_sun (i : ℕ) :
    ∀ (l : List (ℕ × Planet)) (s : Planet) (a b : ℝ),
    (∀ p ∈ l, p.1 ≠ i → p.2.sun = false) →
    (l.foldl (forceAccum i) (s, a, b)).1 = s := by
  intro l
  induction l with
  | nil => intro s a b _; simp
  | cons p l ih =>
    intro s a b h
    rw [List.foldl_cons]
    by_cases hp : p.1 = i
    · simp only [forceAccum, if_pos hp]
      exact ih s a b fun q hq => h q (List.mem_cons_of_mem p hq)
    · simp only [forceAccum, if_neg hp]
      rw [attraction_fst_of_not_sun s p.2 (h p (List.mem_cons_self p l) hp)]
      exact ih s (a + (attraction s p.2).2.1) (b + (attraction s p.2).2.2)
        fun q hq => h q (List.mem_cons_of_mem p hq)

/-! ### What `update_position` computes -/

lemma update_position_spec (self : Planet) (i : ℕ) (ps : List Planet) :
    (update_position self i ps).velocity =
      (self.velocity.1 + (specNetForce self i ps).1 / self.mass * Planet.TIMESTEP,
       self.velocity.2 + (specNetForce self i ps).2 / self.mass * Planet.TIMESTEP) ∧
    (update_position self i ps).x =
      self.x + (update_position self i ps).velocity.1 * Planet.TIMESTEP ∧
    (update_position self i ps).y =
      self.y + (update_position self i ps).velocity.2 * Planet.TIMESTEP ∧
    (update_position self i ps).mass = self.mass ∧
    (update_position self i ps).radius = self.radius ∧
    (update_position self i ps).sun = self.sun ∧
    (update_position self i ps).orbit =
      self.orbit ++ [((update_position self i ps).x, (update_position self i ps).y)] := by
  obtain ⟨h1, h2, h3, h4, h5, h6, h7⟩ := forceLoop_fst_fields i ps.enum self 0 0
  have hsnd : (ps.enum.foldl (forceAccum i) (self, 0, 0)).2 = specNetForce self i ps := by
    rw [specNetForce]
    exact forceLoop_snd i self ps.enum self 0 0 rfl rfl rfl
  refine ⟨?_, ?_, ?_, ?_, ?_, ?_, ?_⟩ <;>
    simp only [update_position, h1, h2, h3, h4, h5, h6, h7, hsnd]

lemma update_position_d2s (self : Planet) (i : ℕ) (ps : List Planet)
    (h : ∀ p ∈ ps.enum, p.1 ≠ i → p.2.sun = false) :
    (update_position self i ps).distance_to_sun = self.distance_to_sun := by
  simp only [update_position]
  rw [forceLoop_fst_of_no_sun i ps.enum self 0 0 h]

/-! ### Structural lemmas about the sequential per-frame update -/

lemma seqUpdate_nil (ps : List Planet) : seqUpdate ps [] = ps := rfl

lemma seqUpdate_cons (ps : List Planet) (i : ℕ) (idxs : List ℕ) :
    seqUpdate ps (i :: idxs) =
      seqUpdate (ps.set i (update_position (ps.getD i default) i ps)) idxs := rfl

lemma seqUpdate_append (ps : List Planet) (l1 l2 : List ℕ) :
    seqUpdate ps (l1 ++ l2) = seqUpdate (seqUpdate ps l1) l2 := by
  simp [seqUpdate, List.foldl_append]

lemma seqUpdate_length (idxs : List ℕ) :
    ∀ ps : List Planet, (seqUpdate ps idxs).length = ps.length := by
  induction idxs with
  | nil => intro ps; rfl
  | cons i idxs ih =>
    intro ps
    rw [seqUpdate_cons, ih, List.length_set]

lemma seqUpdate_getD_not_mem (idxs : List ℕ) :
    ∀ (ps : List Planet) (i : ℕ), i ∉ idxs →
      (seqUpdate ps idxs).getD i default = ps.getD i default := by
  induction idxs with
  | nil => intro ps i _; rfl
  | cons j idxs ih =>
    intro ps i hi
    rw [seqUpdate_cons, ih _ i (fun hmem => hi (List.mem_cons_of_mem j hmem))]
    have hji : j ≠ i := fun e => hi (by rw [← e]; exact List.mem_cons_self j idxs)
    rw [List.getD_eq_getElem?_getD, List.getElem?_set_ne hji,
      ← List.getD_eq_getElem?_getD]

lemma range_decomp (i : ℕ) :
    ∀ n : ℕ, i < n →
      ∃ l2 : List ℕ, List.range n = List.range i ++ i :: l2 ∧ ∀ j ∈ l2, i < j := by
  intro n
  induction n with
  | zero => intro h; exact absurd h (Nat.not_lt_zero i)
  | succ m ih =>
    intro h
    rcases Nat.lt_succ_iff_lt_or_eq.mp h with hlt | heq
    · obtain ⟨l2, hl2, hgt⟩ := ih hlt
      refine ⟨l2 ++ [m], ?_, ?_⟩
      · rw [List.range_succ, hl2]
        simp
      · intro j hj
        rcases List.mem_append.mp hj with hj | hj
        · exact hgt j hj
        · rw [List.mem_singleton.mp hj]
          exact hlt
    · subst heq
      exact ⟨[], by simp [List.range_succ], by simp⟩

lemma tick_length (ps : List Planet) : (tick ps).length = ps.length :=
  seqUpdate_length _ ps

lemma tick_getD (ps : List Planet) (i : ℕ) (hi : i < ps.length) :
    (tick ps).getD i default =
      update_position (ps.getD i default) i (seqUpdate ps (List.range i)) := by
  obtain ⟨l2, hl2, hgt⟩ := range_decomp i ps.length hi
  have hq : i < (seqUpdate ps (List.range i)).length := by
    rw [seqUpdate_length]; exact hi
  have hbase : (seqUpdate ps (List.range i)).getD i default = ps.getD i default :=
    seqUpdate_getD_not_mem _ ps i (by simp [List.mem_range])
  rw [tick, hl2, seqUpdate_append, seqUpdate_cons,
    seqUpdate_getD_not_mem l2 _ i (fun hmem => lt_irrefl i (hgt i hmem))]
  rw [List.getD_eq_getElem?_getD,
    List.getElem?_set_self (by rw [seqUpdate_length]; exact hi)]
  rw [hbase]
  rfl

lemma steps_zero (ps : List Planet) : steps 0 ps = ps := rfl

lemma steps_succ (k : ℕ) (ps : List Planet) :
    steps (k + 1) ps = tick (steps k ps) :=
  Function.iterate_succ_apply' tick k ps

lemma steps_length (k : ℕ) (ps : List Planet) : (steps k ps).length = ps.length := by
  induction k with
  | zero => rfl
  | succ k ih => rw [steps_succ, tick_length, ih]

lemma seqUpdate_getD_sun (idxs : List ℕ) :
    ∀ (ps : List Planet) (j : ℕ),
      ((seqUpdate ps idxs).getD j default).sun = ((ps.getD j default)).sun := by
  induction idxs with
  | nil => intro ps j; rfl
  | cons i idxs ih =>
    intro ps j
    rw [seqUpdate_cons, ih]
    rw [List.getD_eq_getElem?_getD, List.getElem?_set]
    by_cases hij : i = j
    · subst hij
      by_cases hlen : i < ps.length
      · obtain ⟨_, _, _, _, _, hsun, _⟩ :=
          update_position_spec (ps.getD i default) i ps
        simp only [if_pos rfl, if_pos hlen, Option.getD_some,
          List.getD_eq_getElem ps default hlen] at hsun ⊢
        exact hsun
      · simp only [if_pos rfl, if_neg hlen, Option.getD_none]
        rw [List.getD_eq_getElem?_getD, List.getElem?_eq_none (by omega)]
        rfl
    · simp only [if_neg hij, ← List.getD_eq_getElem?_getD]

lemma tick_getD_sun (ps : List Planet) (j : ℕ) :
    ((tick ps).getD j default).sun = ((ps.getD j default)).sun :=
  seqUpdate_getD_sun _ ps j

lemma steps_getD_sun (k : ℕ) (ps : List Planet) (j : ℕ) :
    ((steps k ps).getD j default).sun = ((ps.getD j default)).sun := by
  induction k with
  | zero => rfl
  | succ k ih => rw [steps_succ, tick_getD_sun, ih]

lemma tick_orbit (ps : List Planet) (i : ℕ) (hi : i < ps.length) :
    ((tick ps).getD i default).orbit =
      ((ps.getD i default)).orbit ++
        [(((tick ps).getD i default).x, ((tick ps).getD i default).y)] := by
  rw [tick_getD ps i hi]
  obtain ⟨_, _, _, _, _, _, ho⟩ :=
    update_position_spec (ps.getD i default) i (seqUpdate ps (List.range i))
  exact ho

lemma steps_orbit (ps : List Planet) (i : ℕ) (hi : i < ps.length) :
    ∀ k : ℕ, ((steps k ps).getD i default).orbit =
      ((ps.getD i default)).orbit ++
        (List.range k).map (fun j =>
          (((steps (j + 1) ps).getD i default).x,
           ((steps (j + 1) ps).getD i default).y)) := by
  intro k
  induction k with
  | zero => simp [steps_zero]
  | succ k ih =>
    have hlen : i < (steps k ps).length := by rw [steps_length]; exact hi
    have e1 : ((steps (k + 1) ps).getD i default).orbit =
        ((steps k ps).getD i default).orbit ++
          [(((steps (k + 1) ps).getD i default).x,
            ((steps (k + 1) ps).getD i default).y)] := by
      rw [steps_succ]
      exact tick_orbit (steps k ps) i hlen
    rw [e1, ih, List.range_succ, List.map_append, List.append_assoc]
    simp

lemma tick_getD_d2s (ps : List Planet) (i : ℕ) (hi : i < ps.length)
    (h : ∀ j : ℕ, j ≠ i → ((ps.getD j default)).sun = false) :
    ((tick ps).getD i default).distance_to_sun =
      ((ps.getD i default)).distance_to_sun := by
  rw [tick_getD ps i hi]
  apply update_position_d2s
  intro p hp hpne
  have hmem := List.mem_enum_iff_getElem?.mp hp
  have h2 : ((seqUpdate ps (List.range i)).getD p.1 default) = p.2 := by
    rw [List.getD_eq_getElem?_getD, hmem]
    rfl
  rw [← h2, seqUpdate_getD_sun]
  exact h p.1 hpne

lemma steps_getD_d2s (ps : List Planet) (i : ℕ) (hi : i < ps.length)
    (h : ∀ j : ℕ, j ≠ i → ((ps.getD j default)).sun = false) :
    ∀ k, ((steps k ps).getD i default).distance_to_sun =
      ((ps.getD i default)).distance_to_sun := by
  intro k
  induction k with
  | zero => rfl
  | succ k ih =>
    have hlen : i < (steps k ps).length := by rw [steps_length]; exact hi
    rw [steps_succ,
      tick_getD_d2s (steps k ps) i hlen
        (fun j hj => by rw [steps_getD_sun]; exact h j hj),
      ih]

/-! ### A single-body system -/

lemma tick_single (q : Planet) :
    tick [q] = [{ q with
      x := q.x + q.velocity.1 * Planet.TIMESTEP,
      y := q.y + q.velocity.2 * Planet.TIMESTEP,
      velocity := (q.velocity.1, q.velocity.2),
      orbit := q.orbit ++ [(q.x + q.velocity.1 * Planet.TIMESTEP,
                            q.y + q.velocity.2 * Planet.TIMESTEP)] }] := by
  show seqUpdate [q] (List.range 1) = _
  rw [show List.range 1 = [0] from rfl, seqUpdate_cons, seqUpdate_nil]
  show [update_position q 0 [q]] = _
  have he : ([q] : List Planet).enum = [(0, q)] := rfl
  simp only [update_position, he, List.foldl_cons, List.foldl_nil, forceAccum,
    if_pos rfl]
  simp

lemma steps_single (p : Planet) :
    ∀ k : ℕ, ∃ q : Planet, steps k [p] = [q] ∧
      q.velocity = p.velocity ∧
      q.x = p.x + (k : ℝ) * (p.velocity.1 * Planet.TIMESTEP) ∧
      q.y = p.y + (k : ℝ) * (p.velocity.2 * Planet.TIMESTEP) := by
  intro k
  induction k with
  | zero => exact ⟨p, rfl, rfl, by simp, by simp⟩
  | succ k ih =>
    obtain ⟨q, hq, hv, hx, hy⟩ := ih
    have hv1 : q.velocity.1 = p.velocity.1 := congrArg Prod.fst hv
    have hv2 : q.velocity.2 = p.velocity.2 := congrArg Prod.snd hv
    refine ⟨_, by rw [steps_succ, hq, tick_single q], ?_, ?_, ?_⟩
    · show (q.velocity.1, q.velocity.2) = p.velocity
      rw [← hv]
    · show q.x + q.velocity.1 * Planet.TIMESTEP =
        p.x + ((k + 1 : ℕ) : ℝ) * (p.velocity.1 * Planet.TIMESTEP)
      rw [hx, hv1]
      push_cast
      ring
    · show q.y + q.velocity.2 * Planet.TIMESTEP =
        p.y + ((k + 1 : ℕ) : ℝ) * (p.velocity.2 * Planet.TIMESTEP)
      rw [hy, hv2]
      push_cast
      ring

lemma attraction_snd_fst (s o : Planet) (h : ¬(o.x - s.x = 0 ∧ o.y - s.y = 0)) :
    (attraction s o).2.1 =
      Planet.G * s.mass * o.mass / Real.sqrt ((o.x - s.x) ^ 2 + (o.y - s.y) ^ 2) ^ 2 *
        ((o.x - s.x) / Real.sqrt ((o.x - s.x) ^ 2 + (o.y - s.y) ^ 2)) := by
  rw [attraction_snd s o h]

lemma attraction_snd_snd (s o : Planet) (h : ¬(o.x - s.x = 0 ∧ o.y - s.y = 0)) :
    (attraction s o).2.2 =
      Planet.G * s.mass * o.mass / Real.sqrt ((o.x - s.x) ^ 2 + (o.y - s.y) ^ 2) ^ 2 *
        ((o.y - s.y) / Real.sqrt ((o.x - s.x) ^ 2 + (o.y - s.y) ^ 2)) := by
  rw [attraction_snd s o h]

/-! ### Claim theorems -/

/-- C2: one `update_position` call is a semi-implicit Euler step.  The
force total equals the sum of `attraction self other` over every other
body (index different from `i`), taken at the positions the collection
holds when the call is made; velocity is updated first from the
acceleration `F/m`, the position is then updated with the already-new
velocity, and the new position is appended to the orbit history; mass,
radius and the sun flag are untouched. -/
theorem claim_C2_step_semi_implicit_euler (self : Planet) (i : ℕ) (ps : List Planet) :
    (update_position self i ps).velocity =
      (self.velocity.1 + (specNetForce self i ps).1 / self.mass * Planet.TIMESTEP,
       self.velocity.2 + (specNetForce self i ps).2 / self.mass * Planet.TIMESTEP) ∧
    (update_position self i ps).x =
      self.x + (update_position self i ps).velocity.1 * Planet.TIMESTEP ∧
    (update_position self i ps).y =
      self.y + (update_position self i ps).velocity.2 * Planet.TIMESTEP ∧
    (update_position self i ps).mass = self.mass ∧
    (update_position self i ps).radius = self.radius ∧
    (update_position self i ps).sun = self.sun ∧
    (update_position self i ps).orbit =
      self.orbit ++ [((update_position self i ps).x, (update_position self i ps).y)] :=
  update_position_spec self i ps

/-- C5: `attraction self other` leaves every field of `self` unchanged
except `distance_to_sun`, which is overwritten exactly when `other.sun`
holds, and then carries the Euclidean distance between the two bodies'
positions at call time.  (`other` is not written to at all: the
embedding of the call returns only the updated `self` and the forces.) -/
theorem claim_C5_attraction_frame_effect (self other : Planet) :
    (attraction self other).1.x = self.x ∧
    (attraction self other).1.y = self.y ∧
    (attraction self other).1.velocity = self.velocity ∧
    (attraction self other).1.mass = self.mass ∧
    (attraction self other).1.radius = self.radius ∧
    (attraction self other).1.orbit = self.orbit ∧
    (attraction self other).1.sun = self.sun ∧
    (attraction self other).1.distance_to_sun =
      (if other.sun then Real.sqrt ((other.x - self.x) ^ 2 + (other.y - self.y) ^ 2)
       else self.distance_to_sun) := by
  obtain ⟨h1, h2, h3, h4, h5, h6, h7⟩ := attraction_fst_fields self other
  exact ⟨h1, h2, h3, h4, h5, h6, h7, attraction_fst_d2s self other⟩

/-- C6: the force computation raises the division-by-zero error exactly
when the two bodies coincide (separation zero); at positive separation
it returns the force pair normally. -/
theorem claim_C6_zero_distance_error (self other : Planet) :
    (attractionE self other).2 = Except.error "float division by zero" ↔
      (other.x = self.x ∧ other.y = self.y) := by
  have hcond : Real.sqrt ((other.x - self.x) ^ 2 + (other.y - self.y) ^ 2) ^ 2 = 0 ↔
      (other.x = self.x ∧ other.y = self.y) := by
    rw [Real.sq_sqrt (by positivity)]
    constructor
    · intro h
      have h1 : (other.x - self.x) ^ 2 = 0 := by
        nlinarith [sq_nonneg (other.x - self.x), sq_nonneg (other.y - self.y)]
      have h2 : (other.y - self.y) ^ 2 = 0 := by
        nlinarith [sq_nonneg (other.x - self.x), sq_nonneg (other.y - self.y)]
      exact ⟨sub_eq_zero.mp (sq_eq_zero_iff.mp h1),
        sub_eq_zero.mp (sq_eq_zero_iff.mp h2)⟩
    · intro h
      rw [h.1, h.2]
      ring
  simp only [attractionE, apply_ite Prod.snd]
  split_ifs with h
  · simpa using hcond.mp h
  · constructor
    · intro hcontra
      simp at hcontra
    · intro hxy
      exact absurd (hcond.mpr hxy) h

/-- C7 counterexample: the constructor accepts mass `-1` and returns a
Body whose mass is non-positive, so a Body with mass ≤ 0 exists and no
construction-time failure occurs. -/
theorem claim_C7_counterexample : (Planet.init 0 0 1 (-1)).mass ≤ 0 := by
  norm_num [Planet.init]

/-- C7 amended: `Planet.__init__` performs no mass validation; a Body
constructed with any mass `m`, including `m ≤ 0`, is silently accepted
with its mass field equal to `m` and the standard initial state. -/
theorem claim_C7_amended (x y r m : ℝ) (hm : m ≤ 0) :
    Planet.init x y r m =
      { x := x, y := y, radius := r, mass := m, velocity := (0, 0),
        orbit := [], sun := false, distance_to_sun := 0 } := rfl

theorem claim_C7_amended_witness :
    Planet.init 0 0 1 (-1) =
      { x := 0, y := 0, radius := 1, mass := -1, velocity := (0, 0),
        orbit := [], sun := false, distance_to_sun := 0 } :=
  claim_C7_amended 0 0 1 (-1) (by norm_num)

/-- A single-body configuration with a nonzero initial velocity, as the
driver sets one (`planet.velocity[1] = ...` after construction). -/
noncomputable def singleBody : Planet :=
  { Planet.init 0 0 1 1 with velocity := (1, 0), sun := true }

/-- C8 counterexample: a single-body system whose body carries a nonzero
velocity moves: after one step its x-coordinate is 86400, not 0, so the
position is not unchanged as claimed. -/
theorem claim_C8_counterexample :
    ((steps 1 [singleBody]).getD 0 default).x ≠ singleBody.x := by
  obtain ⟨q, hq, hv, hx, hy⟩ := steps_single singleBody 1
  rw [hq]
  show q.x ≠ singleBody.x
  rw [hx]
  norm_num [singleBody, Planet.init, Planet.TIMESTEP]

/-- C8 amended: in a single-body system the net force is zero, so the
velocity is unchanged after any number of steps and the position
translates uniformly by `k * v * timestep`; in particular position is
unchanged for every `k` exactly when the initial velocity is zero. -/
theorem claim_C8_amended (p : Planet) (hm : 0 < p.mass) (k : ℕ) :
    ((steps k [p]).getD 0 default).velocity = p.velocity ∧
    ((steps k [p]).getD 0 default).x =
      p.x + (k : ℝ) * (p.velocity.1 * Planet.TIMESTEP) ∧
    ((steps k [p]).getD 0 default).y =
      p.y + (k : ℝ) * (p.velocity.2 * Planet.TIMESTEP) := by
  obtain ⟨q, hq, hv, hx, hy⟩ := steps_single p k
  rw [hq]
  exact ⟨hv, hx, hy⟩

theorem claim_C8_amended_witness :
    ((steps 4 [Planet.init 2 3 1 5]).getD 0 default).velocity =
      (Planet.init 2 3 1 5).velocity ∧
    ((steps 4 [Planet.init 2 3 1 5]).getD 0 default).x =
      (Planet.init 2 3 1 5).x +
        (4 : ℝ) * ((Planet.init 2 3 1 5).velocity.1 * Planet.TIMESTEP) ∧
    ((steps 4 [Planet.init 2 3 1 5]).getD 0 default).y =
      (Planet.init 2 3 1 5).y +
        (4 : ℝ) * ((Planet.init 2 3 1 5).velocity.2 * Planet.TIMESTEP) := by
  have h := claim_C8_amended (Planet.init 2 3 1 5) (by norm_num [Planet.init]) 4
  simpa using h

/-- C9: starting from freshly-constructed bodies (empty trajectories),
after `k` steps every body's orbit history has exactly `k` entries, and
its `j`-th entry (0-based) is the body's position at the end of step
`j + 1` — entries appear in computation order. -/
theorem claim_C9_trajectory_growth (ps : List Planet)
    (hm : ∀ p ∈ ps, 0 < p.mass) (h0 : ∀ p ∈ ps, p.orbit = [])
    (k i : ℕ) (hi : i < ps.length) :
    ((steps k ps).getD i default).orbit.length = k ∧
    ∀ j, j < k →
      ((steps k ps).getD i default).orbit.getD j (0, 0) =
        (((steps (j + 1) ps).getD i default).x,
         ((steps (j + 1) ps).getD i default).y) := by
  have hbase : ((ps.getD i default)).orbit = [] := by
    rw [List.getD_eq_getElem ps default hi]
    exact h0 _ (List.getElem_mem hi)
  have horb := steps_orbit ps i hi k
  rw [hbase, List.nil_append] at horb
  constructor
  · rw [horb, List.length_map, List.length_range]
  · intro j hj
    have hjlen : j < ((List.range k).map (fun j =>
        (((steps (j + 1) ps).getD i default).x,
         ((steps (j + 1) ps).getD i default).y))).length := by
      rw [List.length_map, List.length_range]
      exact hj
    rw [horb, List.getD_eq_getElem _ _ hjlen, List.getElem_map, List.getElem_range]

theorem claim_C9_trajectory_growth_witness :
    ((steps 2 [Planet.init 1 0 1 1]).getD 0 default).orbit.length = 2 ∧
    ∀ j, j < 2 →
      ((steps 2 [Planet.init 1 0 1 1]).getD 0 default).orbit.getD j (0, 0) =
        (((steps (j + 1) [Planet.init 1 0 1 1]).getD 0 default).x,
         ((steps (j + 1) [Planet.init 1 0 1 1]).getD 0 default).y) := by
  refine claim_C9_trajectory_growth [Planet.init 1 0 1 1] ?_ ?_ 2 0 (by norm_num)
  · intro p hp
    rw [List.mem_singleton.mp hp]
    norm_num [Planet.init]
  · intro p hp
    rw [List.mem_singleton.mp hp]
    rfl

/-- C10: `distance_to_sun` is 0 at construction; and when the body at
index `i` is the only one carrying the sun flag, its own
`distance_to_sun` is never written (self-interaction is skipped and the
field is only assigned when the partner has the flag), so it stays 0
through any number of steps. -/
theorem claim_C10_primary_distance_stays_zero (x y r m : ℝ)
    (ps : List Planet) (i k : ℕ) (hm : ∀ p ∈ ps, 0 < p.mass)
    (hi : i < ps.length)
    (hsun : ((ps.getD i default)).sun = true)
    (hothers : ∀ j : ℕ, j ≠ i → ((ps.getD j default)).sun = false)
    (hz : ((ps.getD i default)).distance_to_sun = 0) :
    (Planet.init x y r m).distance_to_sun = 0 ∧
    ((steps k ps).getD i default).distance_to_sun = 0 := by
  refine ⟨rfl, ?_⟩
  rw [steps_getD_d2s ps i hi hothers k, hz]

theorem claim_C10_primary_distance_stays_zero_witness :
    (Planet.init 5 6 1 2).distance_to_sun = 0 ∧
    ((steps 3 [{ Planet.init 0 0 1 2 with sun := true }]).getD 0
      default).distance_to_sun = 0 := by
  refine claim_C10_primary_distance_stays_zero 5 6 1 2
    [{ Planet.init 0 0 1 2 with sun := true }] 0 3 ?_ (by norm_num) rfl ?_ rfl
  · intro p hp
    rw [List.mem_singleton.mp hp]
    norm_num [Planet.init]
  · intro j hj
    cases j with
    | zero => exact absurd rfl hj
    | succ n => rfl

/-- C1: for two bodies at distinct positions, the returned force pair is
`F * cos(atan2 dy dx)` and `F * sin(atan2 dy dx)` with
`F = G * m_self * m_other / d^2`, which points along the line from self
to other (`F/d * dx`, `F/d * dy`) and has Euclidean magnitude `F`. -/
theorem claim_C1_attraction_force_law (self other : Planet)
    (hms : 0 < self.mass) (hmo : 0 < other.mass)
    (hne : ¬(other.x = self.x ∧ other.y = self.y)) :
    (attraction self other).2.1 =
      Planet.G * self.mass * other.mass /
          Real.sqrt ((other.x - self.x) ^ 2 + (other.y - self.y) ^ 2) ^ 2 *
        Real.cos (atan2 (other.y - self.y) (other.x - self.x)) ∧
    (attraction self other).2.2 =
      Planet.G * self.mass * other.mass /
          Real.sqrt ((other.x - self.x) ^ 2 + (other.y - self.y) ^ 2) ^ 2 *
        Real.sin (atan2 (other.y - self.y) (other.x - self.x)) ∧
    (attraction self other).2.1 =
      Planet.G * self.mass * other.mass /
          Real.sqrt ((other.x - self.x) ^ 2 + (other.y - self.y) ^ 2) ^ 2 /
          Real.sqrt ((other.x - self.x) ^ 2 + (other.y - self.y) ^ 2) *
        (other.x - self.x) ∧
    (attraction self other).2.2 =
      Planet.G * self.mass * other.mass /
          Real.sqrt ((other.x - self.x) ^ 2 + (other.y - self.y) ^ 2) ^ 2 /
          Real.sqrt ((other.x - self.x) ^ 2 + (other.y - self.y) ^ 2) *
        (other.y - self.y) ∧
    Real.sqrt ((attraction self other).2.1 ^ 2 + (attraction self other).2.2 ^ 2) =
      Planet.G * self.mass * other.mass /
        Real.sqrt ((other.x - self.x) ^ 2 + (other.y - self.y) ^ 2) ^ 2 := by
  have hsub : ¬(other.x - self.x = 0 ∧ other.y - self.y = 0) :=
    fun hc => hne ⟨sub_eq_zero.mp hc.1, sub_eq_zero.mp hc.2⟩
  have hd2pos : 0 < (other.x - self.x) ^ 2 + (other.y - self.y) ^ 2 := by
    rcases not_and_or.mp hsub with h | h
    · nlinarith [pow_two_pos_of_ne_zero h, sq_nonneg (other.y - self.y)]
    · nlinarith [pow_two_pos_of_ne_zero h, sq_nonneg (other.x - self.x)]
  have hdpos : 0 < Real.sqrt ((other.x - self.x) ^ 2 + (other.y - self.y) ^ 2) :=
    Real.sqrt_pos.mpr hd2pos
  have hd2 : Real.sqrt ((other.x - self.x) ^ 2 + (other.y - self.y) ^ 2) ^ 2 =
      (other.x - self.x) ^ 2 + (other.y - self.y) ^ 2 := Real.sq_sqrt hd2pos.le
  have hGpos : (0 : ℝ) < Planet.G := by rw [Planet.G]; norm_num
  have hFpos : 0 < Planet.G * self.mass * other.mass /
      Real.sqrt ((other.x - self.x) ^ 2 + (other.y - self.y) ^ 2) ^ 2 := by
    apply div_pos (mul_pos (mul_pos hGpos hms) hmo)
    rw [hd2]
    exact hd2pos
  have h3 := attraction_snd_fst self other hsub
  have h4 := attraction_snd_snd self other hsub
  refine ⟨rfl, rfl, ?_, ?_, ?_⟩
  · rw [h3]; ring
  · rw [h4]; ring
  · rw [h3, h4]
    have key :
        (Planet.G * self.mass * other.mass /
            Real.sqrt ((other.x - self.x) ^ 2 + (other.y - self.y) ^ 2) ^ 2 *
          ((other.x - self.x) /
            Real.sqrt ((other.x - self.x) ^ 2 + (other.y - self.y) ^ 2))) ^ 2 +
        (Planet.G * self.mass * other.mass /
            Real.sqrt ((other.x - self.x) ^ 2 + (other.y - self.y) ^ 2) ^ 2 *
          ((other.y - self.y) /
            Real.sqrt ((other.x - self.x) ^ 2 + (other.y - self.y) ^ 2))) ^ 2 =
        (Planet.G * self.mass * other.mass /
          Real.sqrt ((other.x - self.x) ^ 2 + (other.y - self.y) ^ 2) ^ 2) ^ 2 := by
      have expand :
          (Planet.G * self.mass * other.mass /
              Real.sqrt ((other.x - self.x) ^ 2 + (other.y - self.y) ^ 2) ^ 2 *
            ((other.x - self.x) /
              Real.sqrt ((other.x - self.x) ^ 2 + (other.y - self.y) ^ 2))) ^ 2 +
          (Planet.G * self.mass * other.mass /
              Real.sqrt ((other.x - self.x) ^ 2 + (other.y - self.y) ^ 2) ^ 2 *
            ((other.y - self.y) /
              Real.sqrt ((other.x - self.x) ^ 2 + (other.y - self.y) ^ 2))) ^ 2 =
          (Planet.G * self.mass * other.mass /
            Real.sqrt ((other.x - self.x) ^ 2 + (other.y - self.y) ^ 2) ^ 2) ^ 2 *
            (((other.x - self.x) ^ 2 + (other.y - self.y) ^ 2) /
              Real.sqrt ((other.x - self.x) ^ 2 + (other.y - self.y) ^ 2) ^ 2) := by
        ring
      rw [expand, hd2, div_self (ne_of_gt hd2pos), mul_one]
    rw [key, Real.sqrt_sq hFpos.le]

theorem claim_C1_attraction_force_law_witness :
    (attraction (Planet.init 0 0 1 2) (Planet.init 3 4 1 5)).2.1 =
      Planet.G * (Planet.init 0 0 1 2).mass * (Planet.init 3 4 1 5).mass /
          Real.sqrt (((Planet.init 3 4 1 5).x - (Planet.init 0 0 1 2).x) ^ 2 +
            ((Planet.init 3 4 1 5).y - (Planet.init 0 0 1 2).y) ^ 2) ^ 2 *
        Real.cos (atan2 ((Planet.init 3 4 1 5).y - (Planet.init 0 0 1 2).y)
          ((Planet.init 3 4 1 5).x - (Planet.init 0 0 1 2).x)) ∧
    (attraction (Planet.init 0 0 1 2) (Planet.init 3 4 1 5)).2.2 =
      Planet.G * (Planet.init 0 0 1 2).mass * (Planet.init 3 4 1 5).mass /
          Real.sqrt (((Planet.init 3 4 1 5).x - (Planet.init 0 0 1 2).x) ^ 2 +
            ((Planet.init 3 4 1 5).y - (Planet.init 0 0 1 2).y) ^ 2) ^ 2 *
        Real.sin (atan2 ((Planet.init 3 4 1 5).y - (Planet.init 0 0 1 2).y)
          ((Planet.init 3 4 1 5).x - (Planet.init 0 0 1 2).x)) ∧
    (attraction (Planet.init 0 0 1 2) (Planet.init 3 4 1 5)).2.1 =
      Planet.G * (Planet.init 0 0 1 2).mass * (Planet.init 3 4 1 5).mass /
          Real.sqrt (((Planet.init 3 4 1 5).x - (Planet.init 0 0 1 2).x) ^ 2 +
            ((Planet.init 3 4 1 5).y - (Planet.init 0 0 1 2).y) ^ 2) ^ 2 /
          Real.sqrt (((Planet.init 3 4 1 5).x - (Planet.init 0 0 1 2).x) ^ 2 +
            ((Planet.init 3 4 1 5).y - (Planet.init 0 0 1 2).y) ^ 2) *
        ((Planet.init 3 4 1 5).x - (Planet.init 0 0 1 2).x) ∧
    (attraction (Planet.init 0 0 1 2) (Planet.init 3 4 1 5)).2.2 =
      Planet.G * (Planet.init 0 0 1 2).mass * (Planet.init 3 4 1 5).mass /
          Real.sqrt (((Planet.init 3 4 1 5).x - (Planet.init 0 0 1 2).x) ^ 2 +
            ((Planet.init 3 4 1 5).y - (Planet.init 0 0 1 2).y) ^ 2) ^ 2 /
          Real.sqrt (((Planet.init 3 4 1 5).x - (Planet.init 0 0 1 2).x) ^ 2 +
            ((Planet.init 3 4 1 5).y - (Planet.init 0 0 1 2).y) ^ 2) *
        ((Planet.init 3 4 1 5).y - (Planet.init 0 0 1 2).y) ∧
    Real.sqrt ((attraction (Planet.init 0 0 1 2) (Planet.init 3 4 1 5)).2.1 ^ 2 +
        (attraction (Planet.init 0 0 1 2) (Planet.init 3 4 1 5)).2.2 ^ 2) =
      Planet.G * (Planet.init 0 0 1 2).mass * (Planet.init 3 4 1 5).mass /
        Real.sqrt (((Planet.init 3 4 1 5).x - (Planet.init 0 0 1 2).x) ^ 2 +
          ((Planet.init 3 4 1 5).y - (Planet.init 0 0 1 2).y) ^ 2) ^ 2 :=
  claim_C1_attraction_force_law (Planet.init 0 0 1 2) (Planet.init 3 4 1 5)
    (by norm_num [Planet.init]) (by norm_num [Planet.init])
    (by norm_num [Planet.init])

/-- C4: Newton's third law: for bodies at distinct positions, the force
`attraction self other` is the component-wise negation of
`attraction other self`. -/
theorem claim_C4_newton_third_law (self other : Planet)
    (hne : ¬(other.x = self.x ∧ other.y = self.y)) :
    (attraction self other).2.1 = -(attraction other self).2.1 ∧
    (attraction self other).2.2 = -(attraction other self).2.2 := by
  have hsub1 : ¬(other.x - self.x = 0 ∧ other.y - self.y = 0) :=
    fun hc => hne ⟨sub_eq_zero.mp hc.1, sub_eq_zero.mp hc.2⟩
  have hsub2 : ¬(self.x - other.x = 0 ∧ self.y - other.y = 0) := fun hc =>
    hne ⟨(sub_eq_zero.mp hc.1).symm, (sub_eq_zero.mp hc.2).symm⟩
  have hd : Real.sqrt ((self.x - other.x) ^ 2 + (self.y - other.y) ^ 2) =
      Real.sqrt ((other.x - self.x) ^ 2 + (other.y - self.y) ^ 2) := by
    rw [show (self.x - other.x) ^ 2 + (self.y - other.y) ^ 2 =
      (other.x - self.x) ^ 2 + (other.y - self.y) ^ 2 by ring]
  constructor
  · rw [attraction_snd_fst self other hsub1, attraction_snd_fst other self hsub2, hd]
    ring
  · rw [attraction_snd_snd self other hsub1, attraction_snd_snd other self hsub2, hd]
    ring

theorem claim_C4_newton_third_law_witness :
    (attraction (Planet.init 0 0 1 2) (Planet.init 3 4 1 5)).2.1 =
      -(attraction (Planet.init 3 4 1 5) (Planet.init 0 0 1 2)).2.1 ∧
    (attraction (Planet.init 0 0 1 2) (Planet.init 3 4 1 5)).2.2 =
      -(attraction (Planet.init 3 4 1 5) (Planet.init 0 0 1 2)).2.2 :=
  claim_C4_newton_third_law (Planet.init 0 0 1 2) (Planet.init 3 4 1 5)
    (by norm_num [Planet.init])

/-! ### A concrete two-body configuration distinguishing the sequential
and two-pass update schemes -/

/-- A unit-mass body at the origin, at rest. -/
noncomputable def bodyA : Planet := Planet.init 0 0 30 1

/-- A unit-mass body at `x = 1`, at rest. -/
noncomputable def bodyB : Planet := Planet.init 1 0 8 1

lemma enumAB : ([bodyA, bodyB] : List Planet).enum = [(0, bodyA), (1, bodyB)] := rfl

lemma specNetForce_A : specNetForce bodyA 0 [bodyA, bodyB] =
    ((attraction bodyA bodyB).2.1, (attraction bodyA bodyB).2.2) := by
  simp [specNetForce, enumAB]

lemma attraction_AB : (attraction bodyA bodyB).2 =
    (Planet.G * bodyA.mass * bodyB.mass / (bodyB.x - bodyA.x) ^ 2, 0) :=
  attraction_snd_right bodyA bodyB (by norm_num [bodyA, bodyB, Planet.init])
    (by norm_num [bodyA, bodyB, Planet.init])

lemma attraction_AB_fst : (attraction bodyA bodyB).2.1 =
    Planet.G * bodyA.mass * bodyB.mass / (bodyB.x - bodyA.x) ^ 2 := by
  rw [attraction_AB]

lemma attraction_AB_snd : (attraction bodyA bodyB).2.2 = 0 := by
  rw [attraction_AB]

lemma specNetForce_A_fst : (specNetForce bodyA 0 [bodyA, bodyB]).1 =
    Planet.G * bodyA.mass * bodyB.mass / (bodyB.x - bodyA.x) ^ 2 := by
  rw [specNetForce_A]
  exact attraction_AB_fst

lemma specNetForce_A_snd : (specNetForce bodyA 0 [bodyA, bodyB]).2 = 0 := by
  rw [specNetForce_A]
  exact attraction_AB_snd

lemma bodyA_up_mass : (update_position bodyA 0 [bodyA, bodyB]).mass = 1 := by
  obtain ⟨_, _, _, hm, _, _, _⟩ := update_position_spec bodyA 0 [bodyA, bodyB]
  rw [hm]
  norm_num [bodyA, Planet.init]

lemma bodyA_up_x : (update_position bodyA 0 [bodyA, bodyB]).x =
    Planet.G * Planet.TIMESTEP * Planet.TIMESTEP := by
  obtain ⟨hv, hx, _, _, _, _, _⟩ := update_position_spec bodyA 0 [bodyA, bodyB]
  have hv1 : (update_position bodyA 0 [bodyA, bodyB]).velocity.1 =
      bodyA.velocity.1 +
        (specNetForce bodyA 0 [bodyA, bodyB]).1 / bodyA.mass * Planet.TIMESTEP := by
    rw [hv]
  rw [hx, hv1, specNetForce_A_fst]
  norm_num [bodyA, bodyB, Planet.init]

lemma bodyA_up_y : (update_position bodyA 0 [bodyA, bodyB]).y = 0 := by
  obtain ⟨hv, _, hy, _, _, _, _⟩ := update_position_spec bodyA 0 [bodyA, bodyB]
  have hv2 : (update_position bodyA 0 [bodyA, bodyB]).velocity.2 =
      bodyA.velocity.2 +
        (specNetForce bodyA 0 [bodyA, bodyB]).2 / bodyA.mass * Planet.TIMESTEP := by
    rw [hv]
  rw [hy, hv2, specNetForce_A_snd]
  norm_num [bodyA, Planet.init]

lemma seq_list : seqUpdate [bodyA, bodyB] (List.range 1) =
    [update_position bodyA 0 [bodyA, bodyB], bodyB] := by
  rw [show List.range 1 = [0] from rfl, seqUpdate_cons, seqUpdate_nil]
  rfl

lemma enumA'B : ([update_position bodyA 0 [bodyA, bodyB], bodyB] : List Planet).enum =
    [(0, update_position bodyA 0 [bodyA, bodyB]), (1, bodyB)] := rfl

lemma specNetForce_B_seq :
    specNetForce bodyB 1 [update_position bodyA 0 [bodyA, bodyB], bodyB] =
      ((attraction bodyB (update_position bodyA 0 [bodyA, bodyB])).2.1,
       (attraction bodyB (update_position bodyA 0 [bodyA, bodyB])).2.2) := by
  simp [specNetForce, enumA'B]

lemma attraction_BA' :
    (attraction bodyB (update_position bodyA 0 [bodyA, bodyB])).2 =
      (-(Planet.G * bodyB.mass * (update_position bodyA 0 [bodyA, bodyB]).mass /
          ((update_position bodyA 0 [bodyA, bodyB]).x - bodyB.x) ^ 2), 0) :=
  attraction_snd_left bodyB (update_position bodyA 0 [bodyA, bodyB])
    (by rw [bodyA_up_y]; norm_num [bodyB, Planet.init])
    (by rw [bodyA_up_x]; norm_num [bodyB, Planet.init, Planet.G, Planet.TIMESTEP])

lemma attraction_BA'_fst :
    (attraction bodyB (update_position bodyA 0 [bodyA, bodyB])).2.1 =
      -(Planet.G * bodyB.mass * (update_position bodyA 0 [bodyA, bodyB]).mass /
          ((update_position bodyA 0 [bodyA, bodyB]).x - bodyB.x) ^ 2) := by
  rw [attraction_BA']

lemma seq_entry1_x :
    (update_position bodyB 1 [update_position bodyA 0 [bodyA, bodyB], bodyB]).x =
      1 - Planet.G / (Planet.G * Planet.TIMESTEP * Planet.TIMESTEP - 1) ^ 2 *
        Planet.TIMESTEP * Planet.TIMESTEP := by
  obtain ⟨hv, hx, _, _, _, _, _⟩ :=
    update_position_spec bodyB 1 [update_position bodyA 0 [bodyA, bodyB], bodyB]
  have hv1 : (update_position bodyB 1
      [update_position bodyA 0 [bodyA, bodyB], bodyB]).velocity.1 =
      bodyB.velocity.1 +
        (specNetForce bodyB 1 [update_position bodyA 0 [bodyA, bodyB], bodyB]).1 /
          bodyB.mass * Planet.TIMESTEP := by
    rw [hv]
  have hF1 : (specNetForce bodyB 1
      [update_position bodyA 0 [bodyA, bodyB], bodyB]).1 =
      (attraction bodyB (update_position bodyA 0 [bodyA, bodyB])).2.1 := by
    rw [specNetForce_B_seq]
  rw [hx, hv1, hF1, attraction_BA'_fst, bodyA_up_x, bodyA_up_mass]
  norm_num [bodyB, Planet.init]
  ring

lemma specNetForce_B_tp : specNetForce bodyB 1 [bodyA, bodyB] =
    ((attraction bodyB bodyA).2.1, (attraction bodyB bodyA).2.2) := by
  simp [specNetForce, enumAB]

lemma attraction_BA : (attraction bodyB bodyA).2 =
    (-(Planet.G * bodyB.mass * bodyA.mass / (bodyA.x - bodyB.x) ^ 2), 0) :=
  attraction_snd_left bodyB bodyA (by norm_num [bodyA, bodyB, Planet.init])
    (by norm_num [bodyA, bodyB, Planet.init])

lemma attraction_BA_fst : (attraction bodyB bodyA).2.1 =
    -(Planet.G * bodyB.mass * bodyA.mass / (bodyA.x - bodyB.x) ^ 2) := by
  rw [attraction_BA]

lemma tp_entry1_x : (update_position bodyB 1 [bodyA, bodyB]).x =
    1 - Planet.G * Planet.TIMESTEP * Planet.TIMESTEP := by
  obtain ⟨hv, hx, _, _, _, _, _⟩ := update_position_spec bodyB 1 [bodyA, bodyB]
  have hv1 : (update_position bodyB 1 [bodyA, bodyB]).velocity.1 =
      bodyB.velocity.1 +
        (specNetForce bodyB 1 [bodyA, bodyB]).1 / bodyB.mass * Planet.TIMESTEP := by
    rw [hv]
  have hF1 : (specNetForce bodyB 1 [bodyA, bodyB]).1 =
      (attraction bodyB bodyA).2.1 := by
    rw [specNetForce_B_tp]
  rw [hx, hv1, hF1, attraction_BA_fst]
  norm_num [bodyA, bodyB, Planet.init]
  ring

/-- C3 counterexample: with two unit-mass bodies at rest at x = 0 and
x = 1, the body updated second sees the first body's already-updated
position, so the sequential tick and the two-pass scheme give it
different x-coordinates after one tick. -/
theorem claim_C3_counterexample :
    ((tick [bodyA, bodyB]).getD 1 default).x ≠
      ((tickTwoPass [bodyA, bodyB]).getD 1 default).x := by
  have hmain : (tick [bodyA, bodyB]).getD 1 default =
      update_position bodyB 1 [update_position bodyA 0 [bodyA, bodyB], bodyB] := by
    rw [tick_getD [bodyA, bodyB] 1 (by norm_num), seq_list]
    rfl
  have htp : (tickTwoPass [bodyA, bodyB]).getD 1 default =
      update_position bodyB 1 [bodyA, bodyB] := rfl
  rw [hmain, htp, seq_entry1_x, tp_entry1_x]
  intro heq
  rw [Planet.G, Planet.TIMESTEP] at heq
  norm_num at heq

/-- C3 amended: only the body at index 0 is guaranteed to accumulate its
forces from the pre-tick positions — its sequential update agrees with
the two-pass scheme — while bodies later in the iteration order can see
earlier bodies' already-updated positions, so the sequential tick is not
equivalent to the two-pass scheme in general. -/
theorem claim_C3_amended (ps : List Planet) (h : 0 < ps.length) :
    (tick ps).getD 0 default = (tickTwoPass ps).getD 0 default := by
  rw [tick_getD ps 0 h]
  rw [show List.range 0 = ([] : List ℕ) from rfl, seqUpdate_nil]
  cases ps with
  | nil => exact absurd h (by simp)
  | cons p t => rfl

theorem claim_C3_amended_witness :
    (tick [bodyA, bodyB]).getD 0 default =
      (tickTwoPass [bodyA, bodyB]).getD 0 default :=
  claim_C3_amended [bodyA, bodyB] (by norm_num)
